/-
Verification of the H&M global price tracker's core pipeline.

Shallow embedding of:
  - HMScraper._extract_price, HMScraper.__init__ and HMScraper.scrape_category
    (src/hm_scraper.py),
  - CurrencyConverter.convert_to_usd (src/currency_converter.py),
  - save_data (src/collect_data.py) together with the schema created by
    init_db (src/database.py).

Python floats are idealized as exact rationals (ℚ); every amount exercised
below is small and exactly representable, so the idealization is faithful on
all inputs appearing in the theorems.
-/
import Mathlib

/-! ### Python string primitives

Python `str.replace(pat, repl)` replaces every non-overlapping occurrence of
`pat`, scanning left to right; `str.strip()` removes surrounding whitespace.
Both are modelled over `List Char` so that all evaluation is structural and
kernel-reducible. -/

/-- One pass of Python `str.replace`, fuelled by the length of the scanned
list (each step consumes at least one character, so `l.length` fuel always
suffices). An empty pattern is treated as never matching, which agrees with
every call site in the source (all patterns are non-empty). -/
def replaceFuel (pat repl : List Char) : Nat → List Char → List Char
  | _, [] => []
  | 0, l => l
  | fuel + 1, c :: cs =>
    if pat ≠ [] ∧ pat.isPrefixOf (c :: cs) then
      repl ++ replaceFuel pat repl fuel ((c :: cs).drop pat.length)
    else
      c :: replaceFuel pat repl fuel cs

/-- Python `l.replace(pat, repl)` for non-empty `pat`. -/
def pyReplace (l : List Char) (pat repl : String) : List Char :=
  replaceFuel pat.toList repl.toList l.length l

/-- Python `str.strip()`: drop whitespace from both ends. -/
def trimChars (l : List Char) : List Char :=
  ((l.dropWhile Char.isWhitespace).reverse.dropWhile Char.isWhitespace).reverse

/-! ### The price text parser (`HMScraper._extract_price`) -/

/-- The currency-token stripping phase of `_extract_price`
(src/hm_scraper.py lines 106–110): strip, remove `TL`, `₺`, `$`, `£`, `€`,
`SEK`, `kr` in that order, strip again. -/
def cleanPrice (s : List Char) : List Char :=
  let c0 := trimChars s
  let c1 := pyReplace (pyReplace c0 "TL" "") "₺" ""
  let c2 := pyReplace (pyReplace (pyReplace c1 "$" "") "£" "") "€" ""
  let c3 := pyReplace (pyReplace c2 "SEK" "") "kr" ""
  trimChars c3

/-- The separator-handling phase of `_extract_price`
(src/hm_scraper.py lines 112–121): if both `,` and `.` occur, delete every
`.` and turn `,` into `.`; if only `,` occurs, turn it into `.`; otherwise
delete every `,` (a no-op on comma-free strings). -/
def handleSeparators (l : List Char) : List Char :=
  if l.contains ',' && l.contains '.' then
    pyReplace (pyReplace l "." "") "," "."
  else if l.contains ',' then
    pyReplace l "," "."
  else
    pyReplace l "," ""

/-- Decimal value of a digit string, most significant first. -/
def digitsVal (ds : List Char) : Nat :=
  ds.foldl (fun a c => a * 10 + (c.toNat - 48)) 0

/-- Split a leading sign character, Python-float style. -/
def splitSign : List Char → ℚ × List Char
  | '-' :: rest => (-1, rest)
  | '+' :: rest => (1, rest)
  | cs => (1, cs)

/-- Model of Python `float(s)` on the fragment of float-literal syntax price
strings exercise: optional surrounding whitespace, optional sign, then
digits with at most one `.`, at least one digit overall. Anything else
(letters, inner spaces, a lone `.`, a second sign, exponents) raises
`ValueError` in Python and is `none` here. -/
def parseFloat (l : List Char) : Option ℚ :=
  let cs := trimChars l
  let sc := splitSign cs
  let sign := sc.1
  let body := sc.2
  let ip := body.takeWhile Char.isDigit
  let rest := body.dropWhile Char.isDigit
  match rest with
  | [] => if ip.isEmpty then none else some (sign * (digitsVal ip : ℚ))
  | '.' :: fp =>
    if fp.all Char.isDigit && (!ip.isEmpty || !fp.isEmpty) then
      some (sign * ((digitsVal ip : ℚ) + (digitsVal fp : ℚ) / (10 : ℚ) ^ fp.length))
    else
      none
  | _ => none

/-- `HMScraper._extract_price` (src/hm_scraper.py lines 91–127): `None` on a
falsy (empty) input, otherwise clean currency tokens, normalize separators
and apply `float`; a `ValueError` from `float` becomes `None`. -/
def extract_price (price_text : String) : Option ℚ :=
  if price_text = "" then none
  else parseFloat (handleSeparators (cleanPrice price_text.toList))

/-! ### Rounding

Python `round(x, 2)` rounds half to even on the exact value; all floats in
the theorems below are exactly representable, so the idealized rational
rounding coincides with the source behavior. -/

/-- Round half to even, Python `round(x)` on an exact rational. -/
def roundHalfEven (x : ℚ) : ℤ :=
  let f := ⌊x⌋
  let frac := x - (f : ℚ)
  if frac < 1 / 2 then f
  else if 1 / 2 < frac then f + 1
  else if f % 2 = 0 then f else f + 1

/-- Python `round(x, 2)`. -/
def round2 (x : ℚ) : ℚ :=
  ((roundHalfEven (x * 100) : ℤ) : ℚ) / 100

/-! ### The product extraction loop (`HMScraper.scrape_category`) -/

/-- One candidate product node as read off the page: the
`data-articlecode` attribute, the name element's text, the price element's
text and the strikethrough original-price element's text; `none` models a
missing element or attribute. -/
structure RawItem where
  product_code : Option String
  name_text : Option String
  price_text : Option String
  original_text : Option String
deriving DecidableEq

/-- One emitted product record (the dictionary appended at
src/hm_scraper.py lines 234–244). -/
structure Product where
  product_code : String
  product_name : String
  product_url : String
  price_local : ℚ
  original_price_local : Option ℚ
  discount_percentage : ℚ
  currency : String
  region_code : String
  in_stock : Bool
deriving DecidableEq

/-- Display name: the name element's text stripped, or the placeholder
(src/hm_scraper.py line 210). -/
def itemName (it : RawItem) : String :=
  match it.name_text with
  | some t => String.mk (trimChars t.toList)
  | none => "Unknown Product"

/-- Current price: the price element's text stripped then parsed, `None`
when the element is missing (src/hm_scraper.py lines 213–215). -/
def itemPrice (it : RawItem) : Option ℚ :=
  match it.price_text with
  | some t => extract_price (String.mk (trimChars t.toList))
  | none => none

/-- Original (strikethrough) price: parsed only when the element exists
(src/hm_scraper.py lines 221–224). -/
def itemOriginal (it : RawItem) : Option ℚ :=
  match it.original_text with
  | some t => extract_price t
  | none => none

/-- Discount computation (src/hm_scraper.py lines 226–229):
`if original_price and price and original_price > price` — Python
truthiness of a float is `≠ 0`, of `None` is false — then
`((original_price - price) / original_price) * 100`, else `0`. -/
def computeDiscount (original_price : Option ℚ) (price : ℚ) : ℚ :=
  match original_price with
  | some op => if op ≠ 0 ∧ price ≠ 0 ∧ op > price then ((op - price) / op) * 100 else 0
  | none => 0

/-- The body of the per-item loop (src/hm_scraper.py lines 193–244):
skip when the article code is falsy (attribute missing or empty string),
skip when the price is `None` or falsy (`0.0`), otherwise emit the record
with the rounded discount and the hardcoded `in_stock = True`.
`it.product_code` is the code after the article/item attribute fallback
of lines 201–203. -/
def processItem (currency region_code url : String) (it : RawItem) : Option Product :=
  it.product_code.bind fun code =>
    if code = "" then none
    else
      (itemPrice it).bind fun price =>
        if price = 0 then none
        else
          some ⟨code, itemName it, url, price, itemOriginal it,
                round2 (computeDiscount (itemOriginal it) price), currency, region_code, true⟩

/-- The whole extraction loop over the candidate list: per-item failures
skip that item and continue with the rest. -/
def processBatch (currency region_code url : String) (items : List RawItem) : List Product :=
  items.filterMap (processItem currency region_code url)

/-- The scraper's mutable statistics dictionary
(src/hm_scraper.py lines 84–89). -/
structure Stats where
  requests : Nat
  successes : Nat
  failures : Nat
  products_found : Nat
deriving DecidableEq

/-- Outcome of the fetch phase of `scrape_category`: `fetchError` models
`page.goto` raising (network error or navigation timeout, caught at
src/hm_scraper.py lines 255–257), `gridTimeout` models
`wait_for_selector` timing out (caught at lines 169–174), and `content`
carries the candidate nodes found on a successfully rendered page. -/
inductive FetchOutcome where
  | fetchError
  | gridTimeout
  | content (items : List RawItem)

/-- `HMScraper.scrape_category` (src/hm_scraper.py lines 129–262):
`requests` is incremented before navigation; a failed fetch or a grid
timeout increments `failures` and returns the empty list; a rendered page
is processed up to `max_products` candidates, `successes` is incremented
and `products_found` grows by the number of emitted records. -/
def scrape_category (currency region_code url : String) (st : Stats)
    (outcome : FetchOutcome) (max_products : Nat) : List Product × Stats :=
  match outcome with
  | .fetchError =>
    ([], ⟨st.requests + 1, st.successes, st.failures + 1, st.products_found⟩)
  | .gridTimeout =>
    ([], ⟨st.requests + 1, st.successes, st.failures + 1, st.products_found⟩)
  | .content items =>
    let ps := processBatch currency region_code url (items.take max_products)
    (ps, ⟨st.requests + 1, st.successes + 1, st.failures, st.products_found + ps.length⟩)

/-! ### Scraper construction (`HMScraper.__init__`) -/

/-- One entry of `HMScraper.REGIONS` (src/hm_scraper.py lines 22–53). -/
structure RegionConfig where
  name : String
  base_url : String
  currency : String
  language : String
deriving DecidableEq

/-- The `REGIONS` class dictionary. -/
def REGIONS : List (String × RegionConfig) :=
  [("tr", ⟨"Turkey", "https://www2.hm.com/tr_tr", "TRY", "tr_tr"⟩),
   ("us", ⟨"United States", "https://www2.hm.com/en_us", "USD", "en_us"⟩),
   ("uk", ⟨"United Kingdom", "https://www2.hm.com/en_gb", "GBP", "en_gb"⟩),
   ("de", ⟨"Germany", "https://www2.hm.com/de_de", "EUR", "de_de"⟩),
   ("se", ⟨"Sweden", "https://www2.hm.com/sv_se", "SEK", "sv_se"⟩)]

/-- The supported region codes, i.e. the keys of `REGIONS`. -/
def regionCodes : List String := REGIONS.map Prod.fst

/-- The state `__init__` leaves behind on success. -/
structure ScraperState where
  region_code : String
  region : RegionConfig
  base_url : String
  currency : String
  stats : Stats
deriving DecidableEq

/-- `HMScraper.__init__` (src/hm_scraper.py lines 64–89): raises
`ValueError` for a region code outside `REGIONS`, otherwise stores the
region configuration and zeroed statistics. The constructor performs no
network activity: the returned state's `requests` counter is 0. -/
def HMScraper_init (region_code : String) : Except String ScraperState :=
  match REGIONS.lookup region_code with
  | none => .error ("Invalid region code: " ++ region_code)
  | some cfg => .ok ⟨region_code, cfg, cfg.base_url, cfg.currency, ⟨0, 0, 0, 0⟩⟩

/-! ### Currency normalization (`CurrencyConverter.convert_to_usd`) -/

/-- The static fallback table (src/currency_converter.py lines 8–14),
as `Python dict.get`: `some rate` for a listed currency, `none` otherwise. -/
def fallback_rates (currency : String) : Option ℚ :=
  if currency = "TRY" then some (28 / 1000)
  else if currency = "EUR" then some (108 / 100)
  else if currency = "GBP" then some (126 / 100)
  else if currency = "SEK" then some (96 / 1000)
  else if currency = "USD" then some 1
  else none

/-- `CurrencyConverter.convert_to_usd` (src/currency_converter.py lines
16–25). `liveRate` is the outcome of `self.c.get_rate(currency, 'USD')`:
`some r` on success, `none` when it raises (the bare `except:` catches
every exception). USD short-circuits before the lookup; on lookup failure
the fallback table is consulted with default rate 0. Every path returns a
number — the function is total and never propagates an exception. -/
def convert_to_usd (amount : ℚ) (currency : String) (liveRate : Option ℚ) : ℚ :=
  if currency = "USD" then amount
  else
    match liveRate with
    | some rate => amount * rate
    | none => amount * ((fallback_rates currency).getD 0)

/-- The full observable effect of one `convert_to_usd` call: its return
value paired with the list of log/flag emissions of the body. The source
body contains no logging, counter or flag statement on any path, so the
emission list is `[]` identically — in particular the fallback and
unknown-currency paths are silent. -/
def convert_to_usd_log (amount : ℚ) (currency : String) (liveRate : Option ℚ) :
    ℚ × List String :=
  (convert_to_usd amount currency liveRate, [])

/-! ### Persistence (`init_db` in src/database.py, `save_data` in
src/collect_data.py) -/

/-- A row of the `products` table (schema at src/database.py lines 12–19;
`image_url` is never written by `save_data` and is omitted). -/
structure ProductRow where
  article_code : String
  name : String
  category : String
deriving DecidableEq

/-- A row of the `prices` table as written by `save_data`
(src/collect_data.py lines 22–25); `id` and `date_scraped` are
store-assigned. -/
structure PriceRow where
  article_code : String
  region : String
  price_original : ℚ
  currency : String
  price_in_usd : ℚ
deriving DecidableEq

/-- The column names of the `prices` table exactly as created by `init_db`
(src/database.py lines 22–33). -/
def prices_columns : List String :=
  ["id", "article_code", "region", "price_original", "currency", "price_in_usd",
   "date_scraped"]

/-- The two tables of the store. -/
structure DB where
  products : List ProductRow
  prices : List PriceRow
deriving DecidableEq

/-- `INSERT OR IGNORE INTO products` (src/collect_data.py lines 13–16):
SQLite skips the insert when a row with the same primary key
`article_code` already exists, leaving that row untouched. -/
def insertOrIgnoreProduct (db : DB) (code name category : String) : DB :=
  if code ∈ db.products.map ProductRow.article_code then db
  else { db with products := db.products ++ [⟨code, name, category⟩] }

/-- Plain `INSERT INTO prices` (src/collect_data.py lines 22–25): always
appends a fresh row. -/
def insertPrice (db : DB) (row : PriceRow) : DB :=
  { db with prices := db.prices ++ [row] }

/-- The dictionary keys `save_data` reads from each item. -/
structure ItemData where
  article_code : String
  name : String
  price : ℚ
  currency : String
  region : String
deriving DecidableEq

/-- The price row `save_data` builds for one item: the USD price comes
from `convert_to_usd` under the live-rate oracle `rates`. -/
def obsRow (rates : String → Option ℚ) (item : ItemData) : PriceRow :=
  ⟨item.article_code, item.region, item.price, item.currency,
   convert_to_usd item.price item.currency (rates item.currency)⟩

/-- One iteration of the `save_data` loop (src/collect_data.py lines
11–25): insert-or-ignore the product identity, convert the price, insert
the observation row. -/
def save_item (rates : String → Option ℚ) (db : DB) (item : ItemData) : DB :=
  insertPrice (insertOrIgnoreProduct db item.article_code item.name "Dresses")
    (obsRow rates item)

/-- `save_data` (src/collect_data.py lines 6–29): folds the loop body over
the batch. -/
def save_data (rates : String → Option ℚ) (db : DB) (items : List ItemData) : DB :=
  items.foldl (save_item rates) db

/-! ### Helper lemmas -/

theorem roundHalfEven_intCast (n : ℤ) : roundHalfEven ((n : ℚ)) = n := by
  unfold roundHalfEven
  rw [Int.floor_intCast]
  norm_num

theorem round2_intCast (n : ℤ) : round2 ((n : ℚ)) = (n : ℚ) := by
  unfold round2
  rw [show ((n : ℚ) * 100) = (((n * 100 : ℤ)) : ℚ) by push_cast; ring,
    roundHalfEven_intCast]
  push_cast
  ring

theorem round2_zero : round2 (0 : ℚ) = 0 := by
  rw [show (0 : ℚ) = ((0 : ℤ) : ℚ) by norm_num, round2_intCast]

theorem roundHalfEven_nonneg (x : ℚ) (hx : 0 ≤ x) : 0 ≤ roundHalfEven x := by
  have hf : 0 ≤ ⌊x⌋ := Int.floor_nonneg.mpr hx
  simp only [roundHalfEven]
  split
  · exact hf
  · split
    · omega
    · split <;> omega

theorem round2_nonneg (x : ℚ) (hx : 0 ≤ x) : 0 ≤ round2 x := by
  have h := roundHalfEven_nonneg (x * 100) (by positivity)
  have h' : (0 : ℚ) ≤ ((roundHalfEven (x * 100) : ℤ) : ℚ) := by exact_mod_cast h
  unfold round2
  exact div_nonneg h' (by norm_num)

theorem processItem_eq (c r u : String) (it : RawItem) (code : String) (price : ℚ)
    (hc : it.product_code = some code) (hcode : ¬ code = "")
    (hp : itemPrice it = some price) (h0 : ¬ price = 0) :
    processItem c r u it =
      some ⟨code, itemName it, u, price, itemOriginal it,
            round2 (computeDiscount (itemOriginal it) price), c, r, true⟩ := by
  simp [processItem, hc, hcode, hp, h0]

theorem processItem_shape (c r u : String) (it : RawItem) (p : Product)
    (h : processItem c r u it = some p) :
    p.price_local ≠ 0 ∧ p.in_stock = true := by
  unfold processItem at h
  rcases hc : it.product_code with _ | code <;> rw [hc] at h
  · simp at h
  · simp only [Option.some_bind] at h
    by_cases hcode : code = ""
    · rw [if_pos hcode] at h; simp at h
    · rw [if_neg hcode] at h
      rcases hpr : itemPrice it with _ | price <;> rw [hpr] at h
      · simp at h
      · simp only [Option.some_bind] at h
        by_cases h0 : price = 0
        · rw [if_pos h0] at h; simp at h
        · rw [if_neg h0] at h
          injection h with h'
          subst h'
          exact ⟨h0, rfl⟩

theorem mem_scrape_products (c r u : String) (st : Stats) (oc : FetchOutcome) (m : Nat)
    (p : Product) (hp : p ∈ (scrape_category c r u st oc m).1) :
    ∃ it, processItem c r u it = some p := by
  cases oc with
  | fetchError => simp [scrape_category] at hp
  | gridTimeout => simp [scrape_category] at hp
  | content items =>
    simp only [scrape_category] at hp
    obtain ⟨it, -, h⟩ := List.mem_filterMap.mp hp
    exact ⟨it, h⟩

theorem processItem_zero_price (c r u : String) (it : RawItem)
    (hp : itemPrice it = some 0) : processItem c r u it = none := by
  rcases hc : it.product_code with _ | code <;> simp [processItem, hc, hp]

theorem computeDiscount_some (op price : ℚ) :
    computeDiscount (some op) price =
      if op ≠ 0 ∧ price ≠ 0 ∧ op > price then ((op - price) / op) * 100 else 0 := rfl

theorem lookup_eq_none_iff_mem {β : Type} (l : List (String × β)) (r : String) :
    l.lookup r = none ↔ r ∉ l.map Prod.fst := by
  induction l with
  | nil => simp [List.lookup]
  | cons kv t ih =>
    obtain ⟨k, v⟩ := kv
    by_cases h : r = k
    · subst h
      simp [List.lookup]
    · have hbeq : (r == k) = false := by simp [h]
      simp only [List.lookup, hbeq, List.map_cons, List.mem_cons, not_or, ih]
      simp [h]

theorem mem_insertOrIgnore (db : DB) (code n c : String) :
    code ∈ (insertOrIgnoreProduct db code n c).products.map ProductRow.article_code := by
  unfold insertOrIgnoreProduct
  by_cases h : code ∈ db.products.map ProductRow.article_code
  · rw [if_pos h]; exact h
  · rw [if_neg h]; simp

theorem insertOrIgnore_of_mem (db : DB) (code n c : String)
    (h : code ∈ db.products.map ProductRow.article_code) :
    insertOrIgnoreProduct db code n c = db := by
  unfold insertOrIgnoreProduct
  rw [if_pos h]

theorem insertOrIgnore_prices (db : DB) (code n c : String) :
    (insertOrIgnoreProduct db code n c).prices = db.prices := by
  unfold insertOrIgnoreProduct
  split <;> rfl

theorem save_data_prices (rates : String → Option ℚ) (db : DB) (items : List ItemData) :
    (save_data rates db items).prices = db.prices ++ items.map (obsRow rates) := by
  induction items generalizing db with
  | nil => simp [save_data]
  | cons i t ih =>
    show (save_data rates (save_item rates db i) t).prices = _
    rw [ih]
    simp [save_item, insertPrice, insertOrIgnore_prices]

/-! ### Claim theorems -/

/-- Claim C1: evaluation of the parser on the spec's four locale examples.
The first three match the spec (1299.99, 299.99, 29.99) but the
US-thousands string `"1,299.99"` parses to `1.29999`, not `1299.99`: the
both-separators branch of `_extract_price` always deletes `.` and promotes
`,` to the decimal point, and the branch whose comment documents
`1,299.99 -> 1299.99` is unreachable for strings containing a comma. -/
theorem extract_price_locale_examples :
    extract_price "1.299,99" = some (129999 / 100 : ℚ) ∧
    extract_price "299,99" = some (29999 / 100 : ℚ) ∧
    extract_price "$29.99" = some (2999 / 100 : ℚ) ∧
    extract_price "1,299.99" = some (129999 / 100000 : ℚ) ∧
    (129999 / 100000 : ℚ) ≠ (129999 / 100 : ℚ) := by
  refine ⟨?_, ?_, ?_, ?_, by norm_num⟩
  · rw [show extract_price "1.299,99"
        = some ((1 : ℚ) * (((1299 : ℕ) : ℚ) + ((99 : ℕ) : ℚ) / (10 : ℚ) ^ (2 : ℕ))) from rfl]
    norm_num
  · rw [show extract_price "299,99"
        = some ((1 : ℚ) * (((299 : ℕ) : ℚ) + ((99 : ℕ) : ℚ) / (10 : ℚ) ^ (2 : ℕ))) from rfl]
    norm_num
  · rw [show extract_price "$29.99"
        = some ((1 : ℚ) * (((29 : ℕ) : ℚ) + ((99 : ℕ) : ℚ) / (10 : ℚ) ^ (2 : ℕ))) from rfl]
    norm_num
  · rw [show extract_price "1,299.99"
        = some ((1 : ℚ) * (((1 : ℕ) : ℚ) + ((29999 : ℕ) : ℚ) / (10 : ℚ) ^ (5 : ℕ))) from rfl]
    norm_num

/-- Claim C2 (counterexample): on the degraded path (unknown currency,
failed live lookup) the call returns 0 paired with an empty emission
list — `convert_to_usd` contains no logging, counter or flag statement,
so nothing marks the degraded path as degraded; the zero result is
indistinguishable from a genuine zero. -/
theorem convert_degraded_unflagged_counterexample :
    convert_to_usd_log 100 "XYZ" none = (0, []) := by
  have h : fallback_rates "XYZ" = none := by decide
  have husd : ("XYZ" : String) ≠ "USD" := by decide
  unfold convert_to_usd_log convert_to_usd
  rw [if_neg husd, h]
  norm_num

/-- Claim C2 (amended): `convert_to_usd` is total — every path returns a
number (the bare `except:` catches every exception from the live lookup,
so nothing propagates to the caller); when the live lookup fails and the
currency is absent from the fallback table the result is
`amount * 0 = 0`. The degraded path is silent: it is not flagged, logged
or counted, the zero result being its only signature. -/
theorem convert_unknown_currency_silent (amount : ℚ) (currency : String)
    (liveRate : Option ℚ) (h : fallback_rates currency = none) :
    convert_to_usd amount currency none = amount * 0 ∧
    convert_to_usd amount currency none = 0 ∧
    (convert_to_usd_log amount currency liveRate).2 = [] := by
  have husd : currency ≠ "USD" := by
    intro he
    rw [he] at h
    simp [fallback_rates] at h
  have h1 : convert_to_usd amount currency none = amount * 0 := by
    unfold convert_to_usd
    rw [if_neg husd, h]
    rfl
  exact ⟨h1, by rw [h1, mul_zero], rfl⟩

theorem convert_unknown_currency_silent_witness :
    fallback_rates "XYZ" = none ∧ convert_to_usd 100 "XYZ" none = 0 :=
  ⟨by decide, (convert_unknown_currency_silent 100 "XYZ" none (by decide)).2.1⟩

/-- Claim C3 (counterexample): the emitted discount can be negative. The
parser accepts negative literals, `"-5.00 TL"` parses to −5 and passes
the falsy guard, `"-2.00 TL"` parses to −2, and since −2 > −5 the
discount branch fires with a negative original price, emitting
`discount_percentage = -150` — refuting the claim's "the discount is
never negative". -/
theorem discount_negative_counterexample :
    (processItem "TRY" "tr" "u"
        ⟨some "0987654001", some "Dress", some "-5.00 TL", some "-2.00 TL"⟩).map
      Product.discount_percentage = some (-150 : ℚ) ∧ ((-150 : ℚ) < 0) := by
  refine ⟨?_, by norm_num⟩
  have hp : itemPrice ⟨some "0987654001", some "Dress", some "-5.00 TL", some "-2.00 TL"⟩
      = some (-5 : ℚ) := by
    rw [show itemPrice ⟨some "0987654001", some "Dress", some "-5.00 TL", some "-2.00 TL"⟩
        = some ((-1 : ℚ) * (((5 : ℕ) : ℚ) + ((0 : ℕ) : ℚ) / (10 : ℚ) ^ (2 : ℕ))) from rfl]
    norm_num
  have ho : itemOriginal ⟨some "0987654001", some "Dress", some "-5.00 TL", some "-2.00 TL"⟩
      = some (-2 : ℚ) := by
    rw [show itemOriginal ⟨some "0987654001", some "Dress", some "-5.00 TL", some "-2.00 TL"⟩
        = some ((-1 : ℚ) * (((2 : ℕ) : ℚ) + ((0 : ℕ) : ℚ) / (10 : ℚ) ^ (2 : ℕ))) from rfl]
    norm_num
  have hd : computeDiscount (some (-2 : ℚ)) (-5 : ℚ) = -150 := by
    rw [computeDiscount_some, if_pos ⟨by norm_num, by norm_num, by norm_num⟩]
    norm_num
  have hr : round2 (-150 : ℚ) = -150 := by
    rw [show ((-150 : ℚ)) = ((-150 : ℤ) : ℚ) by norm_num, round2_intCast]
  have he := processItem_eq "TRY" "tr" "u"
    ⟨some "0987654001", some "Dress", some "-5.00 TL", some "-2.00 TL"⟩
    "0987654001" (-5) rfl (by decide) hp (by norm_num)
  rw [he]
  simp only [Option.map_some']
  rw [ho, hd, hr]

/-- Claim C3 (amended): the discount equals
`(original − current) / original × 100` rounded to two decimals when the
parsed original price is truthy (present, nonzero) and strictly greater
than the current price, and is 0 in the other cases (absent, equal, or
less-than-current original); original=40, current=30 gives 25.00. The
rounded discount is nonnegative whenever the parsed original price is
nonnegative; the claim's unconditional "never negative" fails only for
negative parsed prices (see the counterexample). -/
theorem discount_derivation (op price : ℚ) :
    round2 (computeDiscount (some 40) 30) = 25 ∧
    computeDiscount none price = 0 ∧
    (op ≤ price → computeDiscount (some op) price = 0) ∧
    (op ≠ 0 → price ≠ 0 → price < op →
      computeDiscount (some op) price = ((op - price) / op) * 100) ∧
    (0 ≤ op → 0 ≤ round2 (computeDiscount (some op) price)) := by
  refine ⟨?_, rfl, ?_, ?_, ?_⟩
  · have hd : computeDiscount (some (40 : ℚ)) 30 = 25 := by
      rw [computeDiscount_some, if_pos ⟨by norm_num, by norm_num, by norm_num⟩]
      norm_num
    rw [hd, show (25 : ℚ) = ((25 : ℤ) : ℚ) by norm_num, round2_intCast]
  · intro hle
    rw [computeDiscount_some, if_neg]
    rintro ⟨-, -, hgt⟩
    exact absurd hle (not_le.mpr hgt)
  · intro h1 h2 h3
    rw [computeDiscount_some, if_pos ⟨h1, h2, h3⟩]
  · intro hop
    by_cases hcond : op ≠ 0 ∧ price ≠ 0 ∧ op > price
    · rw [computeDiscount_some, if_pos hcond]
      obtain ⟨h1, -, h3⟩ := hcond
      have hop' : 0 < op := lt_of_le_of_ne hop (Ne.symm h1)
      have hsub : 0 ≤ op - price := le_of_lt (sub_pos.mpr h3)
      exact round2_nonneg _ (mul_nonneg (div_nonneg hsub (le_of_lt hop')) (by norm_num))
    · rw [computeDiscount_some, if_neg hcond, round2_zero]

theorem discount_derivation_witness :
    round2 (computeDiscount (some 40) 30) = 25 ∧
    0 ≤ round2 (computeDiscount (some 40) 30) :=
  ⟨(discount_derivation 40 30).1,
   (discount_derivation 40 30).2.2.2.2 (by norm_num)⟩

/-- Claim C4: the product upsert is insert-if-absent and idempotent —
after a first upsert of `code`, a second upsert with the same code and
any (possibly different) name and category is a no-op, so the store state
after the second call equals the state after the first and the row
written by the first call is never overwritten. -/
theorem upsert_insert_if_absent (db : DB) (code n1 c1 n2 c2 : String) :
    insertOrIgnoreProduct (insertOrIgnoreProduct db code n1 c1) code n2 c2 =
      insertOrIgnoreProduct db code n1 c1 :=
  insertOrIgnore_of_mem _ code n2 c2 (mem_insertOrIgnore db code n1 c1)

/-- Claim C5 (counterexample): a negative amount does not fail to parse —
`"-5.00"` is accepted by `_extract_price` with value −5 (the cleaned
string is handed to `float`, which accepts a sign), and a candidate with
that price text is emitted by the loop, not skipped. -/
theorem negative_price_accepted_counterexample :
    extract_price "-5.00" = some (-5 : ℚ) ∧
    (processItem "USD" "us" "u" ⟨some "N1", none, some "-5.00", none⟩).isSome = true := by
  have h5 : extract_price "-5.00" = some (-5 : ℚ) := by
    rw [show extract_price "-5.00"
        = some ((-1 : ℚ) * (((5 : ℕ) : ℚ) + ((0 : ℕ) : ℚ) / (10 : ℚ) ^ (2 : ℕ))) from rfl]
    norm_num
  have hp : itemPrice ⟨some "N1", none, some "-5.00", none⟩ = some (-5 : ℚ) := by
    rw [show itemPrice ⟨some "N1", none, some "-5.00", none⟩ = extract_price "-5.00" from rfl]
    exact h5
  have he := processItem_eq "USD" "us" "u" ⟨some "N1", none, some "-5.00", none⟩ "N1" (-5)
    rfl (by decide) hp (by norm_num)
  exact ⟨h5, by rw [he]; rfl⟩

/-- Claim C5 (amended): a price text whose cleaned form is not a valid
numeric literal (of either sign) yields a parse failure (`None`) — e.g.
the empty string fails — and the loop then skips exactly that product and
continues with the rest of the batch instead of aborting; negative
literals, however, parse successfully (see the counterexample). -/
theorem parse_failure_skips_item (c r u : String) (l1 l2 : List RawItem) (it : RawItem)
    (h : itemPrice it = none) :
    processItem c r u it = none ∧
    processBatch c r u (l1 ++ it :: l2) = processBatch c r u l1 ++ processBatch c r u l2 ∧
    extract_price "" = none := by
  have hnone : processItem c r u it = none := by
    rcases hc : it.product_code with _ | code
    · simp [processItem, hc]
    · by_cases hcode : code = "" <;> simp [processItem, hc, hcode, h]
  refine ⟨hnone, ?_, rfl⟩
  simp [processBatch, List.filterMap_append, List.filterMap_cons, hnone]

theorem parse_failure_skips_item_witness :
    itemPrice ⟨some "X9", none, some "abc", none⟩ = none ∧
    processItem "USD" "us" "u" ⟨some "X9", none, some "abc", none⟩ = none :=
  ⟨by decide,
   (parse_failure_skips_item "USD" "us" "u" [] [] ⟨some "X9", none, some "abc", none⟩
     (by decide)).1⟩

/-- Claim C6: constructing the scraper with a region code outside the
supported set `{tr, us, uk, de, se}` raises `ValueError` during
`__init__`, before any network activity; a supported code succeeds, and
the resulting state has issued zero requests (no network activity during
construction). -/
theorem region_misconfig_fail_fast (r : String) :
    (r ∉ regionCodes → HMScraper_init r = .error ("Invalid region code: " ++ r)) ∧
    (r ∈ regionCodes → ∃ st, HMScraper_init r = .ok st ∧ st.stats.requests = 0) := by
  constructor
  · intro h
    have hl : REGIONS.lookup r = none := (lookup_eq_none_iff_mem REGIONS r).mpr h
    unfold HMScraper_init
    rw [hl]
  · intro h
    rcases hcfg : REGIONS.lookup r with _ | cfg
    · exact absurd ((lookup_eq_none_iff_mem REGIONS r).mp hcfg) (not_not_intro h)
    · exact ⟨_, by unfold HMScraper_init; rw [hcfg], rfl⟩

theorem region_misconfig_fail_fast_witness :
    HMScraper_init "fr" = .error ("Invalid region code: " ++ "fr") ∧
    (∃ st, HMScraper_init "tr" = .ok st ∧ st.stats.requests = 0) :=
  ⟨(region_misconfig_fail_fast "fr").1 (by decide),
   (region_misconfig_fail_fast "tr").2 (by decide)⟩

/-- Claim C7: when the fetch fails (navigation error/timeout) or the
product grid never appears within the wait budget, `scrape_category`
returns normally with the empty product list, increments the `failures`
statistic (and `requests`, incremented before navigation), and leaves
`successes` untouched — nothing is raised, so a multi-region caller can
continue with other regions. -/
theorem fetch_failure_nonfatal (c r u : String) (st : Stats) (m : Nat) (oc : FetchOutcome)
    (h : oc = .fetchError ∨ oc = .gridTimeout) :
    (scrape_category c r u st oc m).1 = [] ∧
    (scrape_category c r u st oc m).2.failures = st.failures + 1 ∧
    (scrape_category c r u st oc m).2.requests = st.requests + 1 ∧
    (scrape_category c r u st oc m).2.successes = st.successes := by
  rcases h with rfl | rfl <;> exact ⟨rfl, rfl, rfl, rfl⟩

theorem fetch_failure_nonfatal_witness :
    (scrape_category "TRY" "tr" "u" ⟨3, 1, 1, 5⟩ .gridTimeout 30).1 = [] ∧
    (scrape_category "TRY" "tr" "u" ⟨3, 1, 1, 5⟩ .gridTimeout 30).2.failures = 1 + 1 :=
  ⟨(fetch_failure_nonfatal "TRY" "tr" "u" ⟨3, 1, 1, 5⟩ 30 .gridTimeout (Or.inr rfl)).1,
   (fetch_failure_nonfatal "TRY" "tr" "u" ⟨3, 1, 1, 5⟩ 30 .gridTimeout (Or.inr rfl)).2.1⟩

/-- Claim C8 (counterexample): the `prices` table created by `init_db`
has no `discount_percentage` and no `in_stock` column, so a persisted
observation row cannot record the discount percentage or the stock flag
claimed by the logical schema. -/
theorem prices_schema_counterexample :
    "discount_percentage" ∉ prices_columns ∧ "in_stock" ∉ prices_columns :=
  ⟨by decide, by decide⟩

/-- Claim C8 (amended): every persisted observation row records article
code, region, original price, currency and normalized USD price — but not
the discount percentage or the in-stock flag, which are absent from the
`prices` schema; appending observations is strictly append-only:
`save_data` leaves all prior rows unchanged as a prefix and adds exactly
one new row per item, never updating or merging an existing observation
for the same (article code, region) key. -/
theorem observations_append_only (rates : String → Option ℚ) (db : DB)
    (items : List ItemData) :
    (save_data rates db items).prices = db.prices ++ items.map (obsRow rates) ∧
    "discount_percentage" ∉ prices_columns ∧ "in_stock" ∉ prices_columns :=
  ⟨save_data_prices rates db items, by decide, by decide⟩

/-- Claim C9: every product record emitted by `scrape_category` has a
nonzero `price_local` — the falsy check `if not price` silently drops a
candidate whose price text parses to exactly 0.0 (e.g. `"0.00"`) — while
the same check does not drop negative parsed prices (e.g. `"-7.50"`). -/
theorem emitted_price_nonzero (c r u : String) (st : Stats) (oc : FetchOutcome) (m : Nat)
    (p : Product) (hp : p ∈ (scrape_category c r u st oc m).1) :
    p.price_local ≠ 0 ∧
    processItem c r u ⟨some "Z0", none, some "0.00", none⟩ = none ∧
    (processItem c r u ⟨some "Z1", none, some "-7.50", none⟩).isSome = true := by
  obtain ⟨it, hsome⟩ := mem_scrape_products c r u st oc m p hp
  refine ⟨(processItem_shape c r u it p hsome).1, ?_, ?_⟩
  · apply processItem_zero_price
    rw [show itemPrice ⟨some "Z0", none, some "0.00", none⟩
        = some ((1 : ℚ) * (((0 : ℕ) : ℚ) + ((0 : ℕ) : ℚ) / (10 : ℚ) ^ (2 : ℕ))) from rfl]
    norm_num
  · have hp1 : itemPrice ⟨some "Z1", none, some "-7.50", none⟩ = some (-15 / 2 : ℚ) := by
      rw [show itemPrice ⟨some "Z1", none, some "-7.50", none⟩
          = some ((-1 : ℚ) * (((7 : ℕ) : ℚ) + ((50 : ℕ) : ℚ) / (10 : ℚ) ^ (2 : ℕ))) from rfl]
      norm_num
    rw [processItem_eq c r u _ "Z1" (-15 / 2) rfl (by decide) hp1 (by norm_num)]
    rfl

theorem emitted_price_nonzero_witness :
    (⟨"A1", "Dress", "u", 2999 / 100, none, 0, "USD", "us", true⟩ : Product).price_local ≠ 0 := by
  have hp : itemPrice ⟨some "A1", some "Dress", some "$29.99", none⟩
      = some (2999 / 100 : ℚ) := by
    rw [show itemPrice ⟨some "A1", some "Dress", some "$29.99", none⟩
        = some ((1 : ℚ) * (((29 : ℕ) : ℚ) + ((99 : ℕ) : ℚ) / (10 : ℚ) ^ (2 : ℕ))) from rfl]
    norm_num
  have he := processItem_eq "USD" "us" "u" ⟨some "A1", some "Dress", some "$29.99", none⟩
    "A1" (2999 / 100) rfl (by decide) hp (by norm_num)
  have hre : processItem "USD" "us" "u" ⟨some "A1", some "Dress", some "$29.99", none⟩ =
      some ⟨"A1", "Dress", "u", 2999 / 100, none, 0, "USD", "us", true⟩ := by
    rw [he,
      show itemName ⟨some "A1", some "Dress", some "$29.99", none⟩ = "Dress" from rfl,
      show itemOriginal ⟨some "A1", some "Dress", some "$29.99", none⟩ = none from rfl,
      show computeDiscount none (2999 / 100 : ℚ) = 0 from rfl, round2_zero]
  have hmem : (⟨"A1", "Dress", "u", 2999 / 100, none, 0, "USD", "us", true⟩ : Product)
      ∈ (scrape_category "USD" "us" "u" ⟨0, 0, 0, 0⟩
          (.content [⟨some "A1", some "Dress", some "$29.99", none⟩]) 30).1 := by
    show _ ∈ processBatch "USD" "us" "u"
      (List.take 30 [⟨some "A1", some "Dress", some "$29.99", none⟩])
    simp [processBatch, List.filterMap_cons, hre]
  exact (emitted_price_nonzero "USD" "us" "u" ⟨0, 0, 0, 0⟩
    (.content [⟨some "A1", some "Dress", some "$29.99", none⟩]) 30 _ hmem).1

/-- Claim C10: every product record emitted by `scrape_category` has
`in_stock = true` — the flag is the hardcoded constant of
src/hm_scraper.py line 232, never read from the page, so no emitted
observation can report an out-of-stock product. -/
theorem emitted_in_stock_true (c r u : String) (st : Stats) (oc : FetchOutcome) (m : Nat)
    (p : Product) (hp : p ∈ (scrape_category c r u st oc m).1) :
    p.in_stock = true := by
  obtain ⟨it, hsome⟩ := mem_scrape_products c r u st oc m p hp
  exact (processItem_shape c r u it p hsome).2

theorem emitted_in_stock_true_witness :
    (⟨"B2", "Top", "u", 999 / 100, none, 0, "GBP", "uk", true⟩ : Product).in_stock = true := by
  have hp : itemPrice ⟨some "B2", some "Top", some "£9.99", none⟩
      = some (999 / 100 : ℚ) := by
    rw [show itemPrice ⟨some "B2", some "Top", some "£9.99", none⟩
        = some ((1 : ℚ) * (((9 : ℕ) : ℚ) + ((99 : ℕ) : ℚ) / (10 : ℚ) ^ (2 : ℕ))) from rfl]
    norm_num
  have he := processItem_eq "GBP" "uk" "u" ⟨some "B2", some "Top", some "£9.99", none⟩
    "B2" (999 / 100) rfl (by decide) hp (by norm_num)
  have hre : processItem "GBP" "uk" "u" ⟨some "B2", some "Top", some "£9.99", none⟩ =
      some ⟨"B2", "Top", "u", 999 / 100, none, 0, "GBP", "uk", true⟩ := by
    rw [he,
      show itemName ⟨some "B2", some "Top", some "£9.99", none⟩ = "Top" from rfl,
      show itemOriginal ⟨some "B2", some "Top", some "£9.99", none⟩ = none from rfl,
      show computeDiscount none (999 / 100 : ℚ) = 0 from rfl, round2_zero]
  have hmem : (⟨"B2", "Top", "u", 999 / 100, none, 0, "GBP", "uk", true⟩ : Product)
      ∈ (scrape_category "GBP" "uk" "u" ⟨0, 0, 0, 0⟩
          (.content [⟨some "B2", some "Top", some "£9.99", none⟩]) 30).1 := by
    show _ ∈ processBatch "GBP" "uk" "u"
      (List.take 30 [⟨some "B2", some "Top", some "£9.99", none⟩])
    simp [processBatch, List.filterMap_cons, hre]
  exact emitted_in_stock_true "GBP" "uk" "u" ⟨0, 0, 0, 0⟩
    (.content [⟨some "B2", some "Top", some "£9.99", none⟩]) 30 _ hmem
